import Mathlib

/-!
Verification of the Firestore data-access layer of a social photo-sharing
client (`services/firebase.js`).  The remote document database is modelled as
explicit state: two collections (`users`, `photos`), each a list of
(document identifier, document data) pairs in service order.  Firestore's
`FieldValue.arrayUnion` / `arrayRemove` primitives are modelled by
`arrayUnion` / `arrayRemove` below, `where(field,'==',v)` by a list filter,
`limit(n)` by `List.take`, and the client-side JavaScript `Array.sort`
comparator `(a, b) => b.dateCreated - a.dateCreated` by a stable insertion
sort under the non-strict relation `b.dateCreated ≤ a.dateCreated`.
Fallible async operations return `Option` / `Except`.
-/

namespace Insta

/-- Firestore `FieldValue.arrayUnion(x)` applied to an array field: adds `x`
at the end unless an equal element is already present. -/
def arrayUnion {α : Type} [DecidableEq α] (x : α) (xs : List α) : List α :=
  if x ∈ xs then xs else xs ++ [x]

/-- Firestore `FieldValue.arrayRemove(x)` applied to an array field: removes
every element equal to `x`. -/
def arrayRemove {α : Type} [DecidableEq α] (x : α) (xs : List α) : List α :=
  xs.filter (fun y => y ≠ x)

/-- A comment record stored in a photo's `comments` sequence. -/
structure Comment where
  displayName : String
  text : String
  deriving DecidableEq

/-- A `users` collection document (the fields the data-access layer reads or
writes, plus representative profile fields carried verbatim). -/
structure User where
  userId : String
  username : String
  fullName : String
  emailAddress : String
  photoURL : String
  verifiedUser : Bool
  following : List String
  followers : List String
  savedPosts : List String
  deriving DecidableEq

/-- A `photos` collection document. -/
structure Photo where
  userId : String
  imageSrc : String
  caption : String
  dateCreated : Int
  likes : List String
  saved : List String
  comments : List Comment
  deriving DecidableEq

/-- The remote database state: both collections, in service order.  Each
entry pairs the service-assigned document identifier with the document. -/
structure DB where
  users : List (String × User)
  photos : List (String × Photo)
  deriving DecidableEq

/-- A user document spread together with its document identifier, as built by
`{ ...doc.data(), docId: doc.id }`. -/
structure UserRec extends User where
  docId : String
  deriving DecidableEq

/-- A photo document spread together with its document identifier. -/
structure PhotoRec extends Photo where
  docId : String
  deriving DecidableEq

/-- The trimmed owner projection `{ username, photoURL, verifiedUser, docId }`
joined onto each feed photo. -/
structure UserProj where
  username : String
  photoURL : String
  verifiedUser : Bool
  docId : String
  deriving DecidableEq

/-- A feed record `{ user, ...photo, userLikedPhoto, userSavedPhoto }`. -/
structure FeedPhoto extends PhotoRec where
  user : UserProj
  userLikedPhoto : Bool
  userSavedPhoto : Bool
  deriving DecidableEq

/-- `doesUserExist(username)`: queries `users` by exact `username` match and
returns the number of matching documents. -/
def doesUserExist (username : String) (db : DB) : Nat :=
  ((db.users.filter (fun p => p.2.username = username)).map (fun p => p.2)).length

/-- `createFirestoreUser(userObject)`: inserts the user object verbatim as a
new document; the service assigns the (fresh) document identifier. -/
def createFirestoreUser (userObject : User) (newDocId : String) (db : DB) : DB :=
  { db with users := db.users ++ [(newDocId, userObject)] }

/-- `getUserDataByUserId(userId)`: queries `users` by exact `userId`, maps
each hit to its data merged with the document identifier, and returns the
first result (JavaScript destructuring `const [user] = ...` yields
`undefined`, i.e. `none`, on an empty result). -/
def getUserDataByUserId (userId : String) (db : DB) : Option UserRec :=
  (((db.users.filter (fun p => p.2.userId = userId)).map
    (fun p => UserRec.mk p.2 p.1)).head?)

/-- `getSuggestedProfilesByUserId(userId, userFollowing, limitQuery)`: fetches
up to `limitQuery` user documents in service order, then locally filters out
the requesting user and anyone in `userFollowing`. -/
def getSuggestedProfilesByUserId (userId : String) (userFollowing : List String)
    (limitQuery : Nat) (db : DB) : List UserRec :=
  ((db.users.take limitQuery).map (fun p => UserRec.mk p.2 p.1)).filter
    (fun profile => profile.userId ≠ userId ∧ profile.userId ∉ userFollowing)

/-- The `following`-field update applied to one user document: union or
remove `suggestedUserId` depending on the status flag. -/
def applyFollowingUpdate (suggestedUserId : String) (userFollowingStatus : Bool)
    (u : User) : User :=
  { u with
    following :=
      if userFollowingStatus then arrayRemove suggestedUserId u.following
      else arrayUnion suggestedUserId u.following }

/-- `updateUserFollowingField(suggestedUserId, userId, userFollowingStatus)`:
queries `users` by exact `userId` and issues a `following`-field update on
each matching document (state effect when every issued update succeeds). -/
def updateUserFollowingField (suggestedUserId userId : String)
    (userFollowingStatus : Bool) (db : DB) : DB :=
  { db with
    users := db.users.map (fun p =>
      if p.2.userId = userId then
        (p.1, applyFollowingUpdate suggestedUserId userFollowingStatus p.2)
      else p) }

/-- `updateUserFollowingField` run against a service in which the update on
document `d` fails when `updateFails d` holds.  The source maps
`doc.ref.update(...)` over the matching documents but never awaits the
resulting promises (`docs.map(...)` with no `Promise.all` and no `return`),
so the async function resolves with `ok ()` regardless of update failures;
only the successful updates take effect. -/
def updateUserFollowingFieldRun (updateFails : String → Bool)
    (suggestedUserId userId : String) (userFollowingStatus : Bool) (db : DB) :
    Except String Unit × DB :=
  (Except.ok (),
   { db with
     users := db.users.map (fun p =>
       if p.2.userId = userId ∧ updateFails p.1 = false then
         (p.1, applyFollowingUpdate suggestedUserId userFollowingStatus p.2)
       else p) })

/-- The number of document updates issued by
`updateUserFollowingField(_, userId, _)` that the service fails. -/
def issuedUpdateFailures (updateFails : String → Bool) (userId : String)
    (db : DB) : Nat :=
  (db.users.filter (fun p => p.2.userId = userId ∧ updateFails p.1 = true)).length

/-- The photo documents fetched by `getFollowingUserPhotosByUserId`: all
photos whose `userId` is a member of `userFollowing`, merged with their
document identifiers. -/
def followedPhotos (userFollowing : List String) (db : DB) : List PhotoRec :=
  (db.photos.filter (fun p => p.2.userId ∈ userFollowing)).map
    (fun p => PhotoRec.mk p.2 p.1)

/-- The per-photo body of `getFollowingUserPhotosByUserId`: computes the two
derived booleans and joins the owner projection; destructuring
`{ username, photoURL, verifiedUser, docId }` from an `undefined` owner
lookup throws, modelled by `none`. -/
def joinPhoto (userId : String) (db : DB) (photo : PhotoRec) : Option FeedPhoto :=
  let userLikedPhoto := decide (userId ∈ photo.likes)
  let userSavedPhoto := decide (userId ∈ photo.saved)
  match getUserDataByUserId photo.userId db with
  | none => none
  | some u =>
      some { toPhotoRec := photo,
             user := UserProj.mk u.username u.photoURL u.verifiedUser u.docId,
             userLikedPhoto := userLikedPhoto,
             userSavedPhoto := userSavedPhoto }

/-- `Promise.all` over the per-photo joins: succeeds with the list of joined
records only if every join succeeds, rejects otherwise. -/
def joinAll (userId : String) (db : DB) : List PhotoRec → Option (List FeedPhoto)
  | [] => some []
  | p :: ps =>
      match joinPhoto userId db p, joinAll userId db ps with
      | some fp, some rest => some (fp :: rest)
      | _, _ => none

/-- `getFollowingUserPhotosByUserId(userId, userFollowing)`: fetches the
photos of followed users and joins engagement flags and the owner projection
onto each. -/
def getFollowingUserPhotosByUserId (userId : String) (userFollowing : List String)
    (db : DB) : Option (List FeedPhoto) :=
  joinAll userId db (followedPhotos userFollowing db)

/-- The comparison underlying the client-side sort
`(a, b) => b.dateCreated - a.dateCreated`: non-strict descending order on
creation timestamps. -/
def byNewest (a b : PhotoRec) : Prop := b.dateCreated ≤ a.dateCreated

instance : DecidableRel byNewest := fun a b =>
  inferInstanceAs (Decidable (b.dateCreated ≤ a.dateCreated))

instance : IsTotal PhotoRec byNewest :=
  ⟨fun a b => Int.le_total b.dateCreated a.dateCreated⟩

instance : IsTrans PhotoRec byNewest :=
  ⟨fun _ _ _ h h' => le_trans h' h⟩

/-- `getUserPhotosByUserId(userId, limitQuery)`: fetches up to `limitQuery`
photo documents owned by `userId` (filter then limit, in service order), then
sorts client-side by descending creation timestamp. -/
def getUserPhotosByUserId (userId : String) (limitQuery : Nat) (db : DB) :
    List PhotoRec :=
  (((db.photos.filter (fun p => p.2.userId = userId)).take limitQuery).map
    (fun p => PhotoRec.mk p.2 p.1)).insertionSort byNewest

/-- `addPostComments(postDocId, newPostComment)`: unions the comment record
into the addressed photo document's `comments` sequence. -/
def addPostComments (postDocId : String) (newPostComment : Comment) (db : DB) : DB :=
  { db with
    photos := db.photos.map (fun p =>
      if p.1 = postDocId then
        (p.1, { p.2 with comments := arrayUnion newPostComment p.2.comments })
      else p) }


/-! ### Helper lemmas -/

theorem arrayRemove_arrayUnion {α : Type} [DecidableEq α] (x : α) (xs : List α)
    (h : x ∉ xs) : arrayRemove x (arrayUnion x xs) = xs := by
  unfold arrayUnion arrayRemove
  rw [if_neg h, List.filter_append]
  simp only [List.filter_cons, List.filter_nil]
  have hy : ∀ y ∈ xs, (decide (y ≠ x)) = true := by
    intro y hy
    simp only [decide_eq_true_eq]
    rintro rfl; exact h hy
  rw [List.filter_eq_self.mpr hy]
  simp

theorem arrayUnion_idem {α : Type} [DecidableEq α] (x : α) (xs : List α) :
    arrayUnion x (arrayUnion x xs) = arrayUnion x xs := by
  unfold arrayUnion
  by_cases h : x ∈ xs
  · rw [if_pos h, if_pos h]
  · rw [if_neg h, if_pos (by simp)]

theorem joinAll_mem (userId : String) (db : DB) :
    ∀ (ps : List PhotoRec) (l : List FeedPhoto), joinAll userId db ps = some l →
      ∀ rec ∈ l, ∃ p ∈ ps, joinPhoto userId db p = some rec := by
  intro ps
  induction ps with
  | nil =>
    intro l hl rec hrec
    simp only [joinAll] at hl
    obtain rfl : ([] : List FeedPhoto) = l := Option.some.inj hl
    cases hrec
  | cons p ps ih =>
    intro l hl rec hrec
    simp only [joinAll] at hl
    cases hjp : joinPhoto userId db p with
    | none => rw [hjp] at hl; cases hl
    | some fp =>
      cases hja : joinAll userId db ps with
      | none => rw [hjp, hja] at hl; cases hl
      | some rest =>
        rw [hjp, hja] at hl
        obtain rfl : fp :: rest = l := Option.some.inj hl
        rcases List.mem_cons.mp hrec with rfl | hmem
        · exact ⟨p, List.mem_cons_self _ _, hjp⟩
        · obtain ⟨q, hq, hjq⟩ := ih rest hja rec hmem
          exact ⟨q, List.mem_cons_of_mem _ hq, hjq⟩

theorem joinPhoto_isSome (userId : String) (db : DB) (p : PhotoRec) :
    (joinPhoto userId db p).isSome = true ↔
      (getUserDataByUserId p.userId db).isSome = true := by
  simp only [joinPhoto]
  cases getUserDataByUserId p.userId db <;> simp

theorem joinAll_isSome (userId : String) (db : DB) :
    ∀ ps : List PhotoRec, (joinAll userId db ps).isSome = true ↔
      ∀ p ∈ ps, (joinPhoto userId db p).isSome = true := by
  intro ps
  induction ps with
  | nil => simp [joinAll]
  | cons p ps ih =>
    simp only [joinAll]
    cases hjp : joinPhoto userId db p with
    | none => simp [hjp]
    | some fp =>
      cases hja : joinAll userId db ps with
      | none =>
        rw [hja] at ih
        simp only [Option.isSome_none, Bool.false_eq_true, false_iff, not_forall] at ih
        obtain ⟨q, hq, hnq⟩ := ih
        simp only [Option.isSome_none, Bool.false_eq_true, false_iff, not_forall]
        exact ⟨q, List.mem_cons_of_mem _ hq, hnq⟩
      | some rest =>
        rw [hja] at ih
        simp only [Option.isSome_some, true_iff] at ih
        simp only [Option.isSome_some, true_iff]
        intro q hq
        rcases List.mem_cons.mp hq with rfl | hmem
        · rw [hjp]; rfl
        · exact ih q hmem

theorem head?_filter_map_users (u : String) :
    ∀ l : List (String × User),
      ((l.filter (fun p => p.2.userId = u)).map (fun p => UserRec.mk p.2 p.1)).head? =
        (l.find? (fun p => p.2.userId = u)).map (fun p => UserRec.mk p.2 p.1) := by
  intro l
  induction l with
  | nil => rfl
  | cons p l ih =>
    by_cases h : p.2.userId = u
    · simp [List.filter_cons, List.find?_cons, h]
    · simp only [List.filter_cons, List.find?_cons, h, decide_eq_true_eq,
        if_neg, decide_False]
      exact ih

/-- Per-document frame relation for `updateUserFollowingField`: the document
identifier and every field except `following` are unchanged, a non-matching
document keeps its `following`, and a matching document has its `following`
replaced by exactly the union/remove update. -/
def followingFrame (s u : String) (status : Bool) (p q : String × User) : Prop :=
  q.1 = p.1 ∧ q.2.userId = p.2.userId ∧ q.2.username = p.2.username ∧
  q.2.fullName = p.2.fullName ∧ q.2.emailAddress = p.2.emailAddress ∧
  q.2.photoURL = p.2.photoURL ∧ q.2.verifiedUser = p.2.verifiedUser ∧
  q.2.followers = p.2.followers ∧ q.2.savedPosts = p.2.savedPosts ∧
  (p.2.userId ≠ u → q.2.following = p.2.following) ∧
  (p.2.userId = u → q.2.following =
    if status then arrayRemove s p.2.following else arrayUnion s p.2.following)


/-! ### Concrete fixtures -/

def userC1 : User :=
  { userId := "u1", username := "alice", fullName := "Alice A", emailAddress := "a@mail",
    photoURL := "pa", verifiedUser := false, following := ["u2"], followers := [],
    savedPosts := [] }

def dbC1 : DB := { users := [("d1", userC1)], photos := [] }

def userC1w : User :=
  { userId := "u1", username := "alice", fullName := "Alice A", emailAddress := "a@mail",
    photoURL := "pa", verifiedUser := false, following := [], followers := [],
    savedPosts := [] }

def dbC1w : DB := { users := [("d1", userC1w)], photos := [] }

/-- C1 counterexample: for the user document with `following = ["u2"]`, the
false-flag call is a no-op (`arrayUnion` suppresses the duplicate) and the
true-flag call then removes `"u2"`, so the round trip does not return the
`following` set to its original state. -/
theorem updateUserFollowingField_roundtrip_fails_when_already_following :
    updateUserFollowingField "u2" "u1" true
      (updateUserFollowingField "u2" "u1" false dbC1) ≠ dbC1 ∧
    (updateUserFollowingField "u2" "u1" true
      (updateUserFollowingField "u2" "u1" false dbC1)).users.map
        (fun p => p.2.following) = [[]] ∧
    dbC1.users.map (fun p => p.2.following) = [["u2"]] := by
  refine ⟨by decide, by decide, by decide⟩

/-- C1 (amended): provided `suggestedUserId` is not already a member of any
matching user document's `following` set (i.e. the false flag truthfully
reports "not currently following"), calling
`updateUserFollowingField(suggestedUserId, userId, false)` and then
`updateUserFollowingField(suggestedUserId, userId, true)` returns the
database — in particular every `following` set — to its original state. -/
theorem updateUserFollowingField_roundtrip (db : DB) (s u : String)
    (h : ∀ p ∈ db.users, p.2.userId = u → s ∉ p.2.following) :
    updateUserFollowingField s u true (updateUserFollowingField s u false db) = db := by
  unfold updateUserFollowingField
  cases db with
  | mk users photos =>
    simp only [List.map_map]
    congr 1
    have hpt : ∀ p ∈ users,
        ((fun p : String × User =>
            if p.2.userId = u then (p.1, applyFollowingUpdate s true p.2) else p) ∘
         (fun p : String × User =>
            if p.2.userId = u then (p.1, applyFollowingUpdate s false p.2) else p)) p = p := by
      intro p hp
      simp only [Function.comp_apply]
      by_cases hm : p.2.userId = u
      · rw [if_pos hm]
        have hid : (applyFollowingUpdate s false p.2).userId = p.2.userId := rfl
        rw [if_pos (hid.trans hm)]
        have hrm := arrayRemove_arrayUnion s p.2.following (h p hp hm)
        simp [applyFollowingUpdate, hrm]
      · rw [if_neg hm, if_neg hm]
    rw [List.map_congr_left hpt]
    exact List.map_id _

/-- C1 witness: the round trip at a concrete database whose user does not yet
follow `"u2"`. -/
theorem updateUserFollowingField_roundtrip_witness :
    updateUserFollowingField "u2" "u1" true
      (updateUserFollowingField "u2" "u1" false dbC1w) = dbC1w :=
  updateUserFollowingField_roundtrip dbC1w "u2" "u1" (by decide)

def userC2 : User :=
  { userId := "u1", username := "amy", fullName := "Amy B", emailAddress := "amy@mail",
    photoURL := "pb", verifiedUser := false, following := [], followers := [],
    savedPosts := [] }

def dbC2 : DB := { users := [("d1", userC2)], photos := [] }

/-- C2: `updateUserFollowingField` does not await the document updates it
issues (`docs.map(doc => doc.ref.update(...))` with no `Promise.all`), so
against a service that fails every update the operation still resolves
successfully (`ok ()`) even though an issued update failed and no state
changed: the failure is silently discarded instead of rejecting. -/
theorem updateUserFollowingField_swallows_update_failure :
    (updateUserFollowingFieldRun (fun _ => true) "u2" "u1" false dbC2).1 =
      Except.ok () ∧
    0 < issuedUpdateFailures (fun _ => true) "u1" dbC2 ∧
    (updateUserFollowingFieldRun (fun _ => true) "u2" "u1" false dbC2).2 = dbC2 :=
  ⟨rfl, by decide, rfl⟩

def userC3a : User :=
  { userId := "u1", username := "alice", fullName := "Alice A", emailAddress := "a@mail",
    photoURL := "pa", verifiedUser := false, following := ["u2"], followers := [],
    savedPosts := [] }

def userC3b : User :=
  { userId := "u2", username := "bob", fullName := "Bob B", emailAddress := "b@mail",
    photoURL := "pb", verifiedUser := false, following := [], followers := [],
    savedPosts := [] }

def userC3c : User :=
  { userId := "u3", username := "carol", fullName := "Carol C", emailAddress := "c@mail",
    photoURL := "pc", verifiedUser := true, following := [], followers := [],
    savedPosts := [] }

def dbC3 : DB :=
  { users := [("d1", userC3a), ("d2", userC3b), ("d3", userC3c)], photos := [] }

def recC3 : UserRec := UserRec.mk userC3c "d3"

/-- C3: `getSuggestedProfilesByUserId(userId, F, L)` never returns a profile
whose `userId` equals the requesting user, never returns a profile whose
`userId` is in the following set `F`, and returns at most `L` entries (the
fetch window is limited to `L` documents before the local filter runs). -/
theorem getSuggestedProfilesByUserId_spec (userId : String) (F : List String)
    (L : Nat) (db : DB) :
    (∀ rec ∈ getSuggestedProfilesByUserId userId F L db,
        rec.userId ≠ userId ∧ rec.userId ∉ F) ∧
    (getSuggestedProfilesByUserId userId F L db).length ≤ L := by
  constructor
  · intro rec hrec
    have hmem := List.of_mem_filter hrec
    simpa using hmem
  · calc (getSuggestedProfilesByUserId userId F L db).length
        ≤ ((db.users.take L).map (fun p => UserRec.mk p.2 p.1)).length :=
          List.length_filter_le _ _
      _ = (db.users.take L).length := List.length_map _ _
      _ ≤ L := List.length_take_le _ _

/-- C3 witness: at a concrete three-user database the suggestion `recC3` is
neither the requesting user nor followed, and the result respects the limit. -/
theorem getSuggestedProfilesByUserId_spec_witness :
    (recC3.userId ≠ "u1" ∧ recC3.userId ∉ ["u2"]) ∧
    (getSuggestedProfilesByUserId "u1" ["u2"] 10 dbC3).length ≤ 10 :=
  ⟨(getSuggestedProfilesByUserId_spec "u1" ["u2"] 10 dbC3).1 recC3 (by decide),
   (getSuggestedProfilesByUserId_spec "u1" ["u2"] 10 dbC3).2⟩


def photoC4a : Photo :=
  { userId := "u1", imageSrc := "img1", caption := "one", dateCreated := 5,
    likes := [], saved := [], comments := [] }

def photoC4b : Photo :=
  { userId := "u1", imageSrc := "img2", caption := "two", dateCreated := 5,
    likes := [], saved := [], comments := [] }

def dbC4 : DB := { users := [], photos := [("p1", photoC4a), ("p2", photoC4b)] }

/-- C4 counterexample: two photos owned by `"u1"` with equal `dateCreated`
timestamps are both returned, so the output is non-empty but not strictly
descending — the comparator `b.dateCreated - a.dateCreated` only yields a
non-increasing order. -/
theorem getUserPhotosByUserId_not_strictly_descending :
    getUserPhotosByUserId "u1" 25 dbC4 ≠ [] ∧
    ¬ List.Pairwise (fun a b : PhotoRec => b.dateCreated < a.dateCreated)
        (getUserPhotosByUserId "u1" 25 dbC4) := by
  refine ⟨by decide, by decide⟩

/-- C4 (amended): `getUserPhotosByUserId(userId, limit)` returns only photo
documents whose `userId` field equals the given userId, returns at most
`limit` of them (the limit is applied to the fetch before the client-side
sort), and the result is sorted in non-increasing (weakly descending) order
of the `dateCreated` timestamp; the descent is strict only between elements
with distinct timestamps, since equal timestamps may appear adjacently. -/
theorem getUserPhotosByUserId_spec (userId : String) (L : Nat) (db : DB) :
    (∀ rec ∈ getUserPhotosByUserId userId L db, rec.userId = userId) ∧
    (getUserPhotosByUserId userId L db).length ≤ L ∧
    List.Sorted byNewest (getUserPhotosByUserId userId L db) := by
  refine ⟨?_, ?_, ?_⟩
  · intro rec h
    unfold getUserPhotosByUserId at h
    rw [List.mem_insertionSort] at h
    obtain ⟨p, hp, rfl⟩ := List.mem_map.mp h
    have hmem := List.of_mem_filter (List.mem_of_mem_take hp)
    simpa using hmem
  · unfold getUserPhotosByUserId
    rw [List.length_insertionSort, List.length_map]
    exact List.length_take_le _ _
  · exact List.sorted_insertionSort byNewest _

def photoC4c : Photo :=
  { userId := "u1", imageSrc := "img3", caption := "three", dateCreated := 3,
    likes := [], saved := [], comments := [] }

def photoC4d : Photo :=
  { userId := "u1", imageSrc := "img4", caption := "four", dateCreated := 7,
    likes := [], saved := [], comments := [] }

def photoC4e : Photo :=
  { userId := "u9", imageSrc := "img5", caption := "five", dateCreated := 9,
    likes := [], saved := [], comments := [] }

def dbC4w : DB :=
  { users := [], photos := [("p3", photoC4c), ("p4", photoC4d), ("p5", photoC4e)] }

def recC4 : PhotoRec := PhotoRec.mk photoC4d "p4"

/-- C4 witness: the amended specification at a concrete photo collection. -/
theorem getUserPhotosByUserId_spec_witness :
    recC4.userId = "u1" ∧
    (getUserPhotosByUserId "u1" 25 dbC4w).length ≤ 25 ∧
    List.Sorted byNewest (getUserPhotosByUserId "u1" 25 dbC4w) :=
  ⟨(getUserPhotosByUserId_spec "u1" 25 dbC4w).1 recC4 (by decide),
   (getUserPhotosByUserId_spec "u1" 25 dbC4w).2.1,
   (getUserPhotosByUserId_spec "u1" 25 dbC4w).2.2⟩


/-- C5: every record returned by a successful
`getFollowingUserPhotosByUserId(userId, userFollowing)` has
`userLikedPhoto` true iff `userId` is in the photo's `likes` set as fetched,
`userSavedPhoto` true iff `userId` is in its `saved` set as fetched, and
carries the joined owner projection — exactly the owner's username, photo
reference, verification flag and document identifier as looked up by
`getUserDataByUserId`; the photo fields themselves are those of a fetched
photo document. -/
theorem getFollowingUserPhotosByUserId_join_spec (userId : String)
    (userFollowing : List String) (db : DB) (l : List FeedPhoto)
    (hl : getFollowingUserPhotosByUserId userId userFollowing db = some l) :
    ∀ rec ∈ l,
      rec.userLikedPhoto = decide (userId ∈ rec.likes) ∧
      rec.userSavedPhoto = decide (userId ∈ rec.saved) ∧
      (getUserDataByUserId rec.userId db).map
        (fun own => UserProj.mk own.username own.photoURL own.verifiedUser own.docId) =
        some rec.user ∧
      (rec.docId, rec.toPhoto) ∈ db.photos := by
  intro rec hrec
  obtain ⟨p, hp, hjp⟩ := joinAll_mem userId db _ l hl rec hrec
  have hpdb : (p.docId, p.toPhoto) ∈ db.photos := by
    unfold followedPhotos at hp
    obtain ⟨q, hq, rfl⟩ := List.mem_map.mp hp
    exact List.mem_of_mem_filter hq
  simp only [joinPhoto] at hjp
  cases hu : getUserDataByUserId p.userId db with
  | none => rw [hu] at hjp; cases hjp
  | some own =>
    rw [hu] at hjp
    obtain rfl := Option.some.inj hjp
    exact ⟨rfl, rfl, by rw [hu]; rfl, hpdb⟩

def userC5 : User :=
  { userId := "u2", username := "bob", fullName := "Bob B", emailAddress := "b@mail",
    photoURL := "pb", verifiedUser := true, following := [], followers := ["u1"],
    savedPosts := [] }

def photoC5 : Photo :=
  { userId := "u2", imageSrc := "img", caption := "hello", dateCreated := 4,
    likes := ["u1"], saved := [], comments := [] }

def dbC5 : DB := { users := [("ud2", userC5)], photos := [("pd1", photoC5)] }

def recC5 : FeedPhoto :=
  { toPhotoRec := PhotoRec.mk photoC5 "pd1",
    user := UserProj.mk "bob" "pb" true "ud2",
    userLikedPhoto := true, userSavedPhoto := false }

def lC5 : List FeedPhoto := [recC5]

/-- C5 witness: the joined record of a concrete one-photo feed. -/
theorem getFollowingUserPhotosByUserId_join_spec_witness :
    recC5.userLikedPhoto = decide ("u1" ∈ recC5.likes) ∧
    recC5.userSavedPhoto = decide ("u1" ∈ recC5.saved) ∧
    (getUserDataByUserId recC5.userId dbC5).map
      (fun own => UserProj.mk own.username own.photoURL own.verifiedUser own.docId) =
      some recC5.user ∧
    (recC5.docId, recC5.toPhoto) ∈ dbC5.photos :=
  getFollowingUserPhotosByUserId_join_spec "u1" ["u2"] dbC5 lC5 (by decide)
    recC5 (by decide)

/-- C6: `getUserDataByUserId(userId)` returns `none` exactly when no user
document's `userId` field matches, and otherwise returns the first matching
document merged with its service-assigned document identifier. -/
theorem getUserDataByUserId_spec (u : String) (db : DB) :
    (getUserDataByUserId u db = none ↔ ∀ p ∈ db.users, p.2.userId ≠ u) ∧
    ∀ p, db.users.find? (fun q => q.2.userId = u) = some p →
      getUserDataByUserId u db = some (UserRec.mk p.2 p.1) := by
  constructor
  · unfold getUserDataByUserId
    rw [List.head?_eq_none_iff, List.map_eq_nil_iff, List.filter_eq_nil_iff]
    simp
  · intro p hp
    unfold getUserDataByUserId
    rw [head?_filter_map_users, hp]
    rfl

def userC6 : User :=
  { userId := "u1", username := "alice", fullName := "Alice A", emailAddress := "a@mail",
    photoURL := "pa", verifiedUser := false, following := [], followers := [],
    savedPosts := [] }

def dbC6 : DB := { users := [("d1", userC6)], photos := [] }

/-- C6 witness: lookup of an absent and of a present userId in a concrete
database. -/
theorem getUserDataByUserId_spec_witness :
    getUserDataByUserId "zz" dbC6 = none ∧
    getUserDataByUserId "u1" dbC6 = some (UserRec.mk userC6 "d1") :=
  ⟨(getUserDataByUserId_spec "zz" dbC6).1.mpr (by decide),
   (getUserDataByUserId_spec "u1" dbC6).2 ("d1", userC6) (by decide)⟩


/-- C7: `doesUserExist(U)` returns the exact number of user documents whose
`username` field equals `U` (not a clamped boolean): it returns `0` when no
document matches, and at least `1` after `createFirestoreUser` inserts a
user object with username `U`. -/
theorem doesUserExist_spec (U : String) (db : DB) (obj : User) (newId : String) :
    ((∀ p ∈ db.users, p.2.username ≠ U) → doesUserExist U db = 0) ∧
    (obj.username = U → 1 ≤ doesUserExist U (createFirestoreUser obj newId db)) ∧
    doesUserExist U db = (db.users.filter (fun p => p.2.username = U)).length := by
  refine ⟨?_, ?_, ?_⟩
  · intro h
    unfold doesUserExist
    rw [List.length_map, List.length_eq_zero, List.filter_eq_nil_iff]
    simpa using h
  · intro h
    unfold doesUserExist createFirestoreUser
    rw [List.length_map, List.filter_append]
    simp [h]
  · unfold doesUserExist
    rw [List.length_map]

def userC7 : User :=
  { userId := "u1", username := "alice", fullName := "Alice A", emailAddress := "a@mail",
    photoURL := "pa", verifiedUser := false, following := [], followers := [],
    savedPosts := [] }

def dbC7 : DB := { users := [("d1", userC7)], photos := [] }

def objC7 : User :=
  { userId := "u9", username := "bob", fullName := "Bob B", emailAddress := "b@mail",
    photoURL := "pb", verifiedUser := false, following := [], followers := [],
    savedPosts := [] }

/-- C7 witness: `"bob"` is absent from a concrete database and present after
the insert. -/
theorem doesUserExist_spec_witness :
    doesUserExist "bob" dbC7 = 0 ∧
    1 ≤ doesUserExist "bob" (createFirestoreUser objC7 "d9" dbC7) :=
  ⟨(doesUserExist_spec "bob" dbC7 objC7 "d9").1 (by decide),
   (doesUserExist_spec "bob" dbC7 objC7 "d9").2.1 rfl⟩

/-- C8: unioning a comment record into an empty `comments` sequence yields
the one-element sequence, and `addPostComments` with an identical payload is
idempotent on the database — the union-by-value suppresses the duplicate. -/
theorem addPostComments_spec (db : DB) (postDocId : String) (c : Comment) :
    (∀ q ∈ db.photos, q.1 = postDocId → q.2.comments = [] →
        (postDocId, { q.2 with comments := [c] }) ∈ (addPostComments postDocId c db).photos) ∧
    addPostComments postDocId c (addPostComments postDocId c db) =
      addPostComments postDocId c db := by
  constructor
  · intro q hq hid hcs
    unfold addPostComments
    refine List.mem_map.mpr ⟨q, hq, ?_⟩
    rw [if_pos hid, hid, hcs]
    have hu : arrayUnion c ([] : List Comment) = [c] := by
      unfold arrayUnion; simp
    rw [hu]
  · unfold addPostComments
    cases db with
    | mk users photos =>
      simp only [List.map_map]
      congr 1
      have hpt : ∀ p ∈ photos,
          ((fun p : String × Photo =>
              if p.1 = postDocId then
                (p.1, { p.2 with comments := arrayUnion c p.2.comments }) else p) ∘
           (fun p : String × Photo =>
              if p.1 = postDocId then
                (p.1, { p.2 with comments := arrayUnion c p.2.comments }) else p)) p =
          (fun p : String × Photo =>
              if p.1 = postDocId then
                (p.1, { p.2 with comments := arrayUnion c p.2.comments }) else p) p := by
        intro p _
        simp only [Function.comp_apply]
        by_cases h : p.1 = postDocId
        · rw [if_pos h, if_pos h]
          simp [arrayUnion_idem]
        · rw [if_neg h, if_neg h]
      rw [List.map_congr_left hpt]

def photoC8 : Photo :=
  { userId := "u2", imageSrc := "img", caption := "sunset", dateCreated := 4,
    likes := [], saved := [], comments := [] }

def dbC8 : DB := { users := [], photos := [("pd1", photoC8)] }

def commentC8 : Comment := { displayName := "dave", text := "nice" }

/-- C8 witness: appending the comment to a concrete photo with empty
`comments`, and the idempotence of the repeated append. -/
theorem addPostComments_spec_witness :
    ("pd1", { photoC8 with comments := [commentC8] }) ∈
      (addPostComments "pd1" commentC8 dbC8).photos ∧
    addPostComments "pd1" commentC8 (addPostComments "pd1" commentC8 dbC8) =
      addPostComments "pd1" commentC8 dbC8 :=
  ⟨(addPostComments_spec dbC8 "pd1" commentC8).1 ("pd1", photoC8) (by decide) rfl rfl,
   (addPostComments_spec dbC8 "pd1" commentC8).2⟩


/-- C9: `getFollowingUserPhotosByUserId` succeeds exactly when every fetched
photo's owning `userId` has a matching user document; whenever some owner
lookup comes back absent, the destructuring of the owner projection fails
and the whole operation rejects — there is no per-photo NotFound fallback. -/
theorem getFollowingUserPhotosByUserId_rejects_on_missing_owner (userId : String)
    (userFollowing : List String) (db : DB) :
    (getFollowingUserPhotosByUserId userId userFollowing db).isSome = true ↔
      ∀ p ∈ followedPhotos userFollowing db,
        (getUserDataByUserId p.userId db).isSome = true := by
  unfold getFollowingUserPhotosByUserId
  rw [joinAll_isSome]
  constructor
  · intro h p hp
    exact (joinPhoto_isSome userId db p).mp (h p hp)
  · intro h p hp
    exact (joinPhoto_isSome userId db p).mpr (h p hp)

def userC9 : User :=
  { userId := "u2", username := "bob", fullName := "Bob B", emailAddress := "b@mail",
    photoURL := "pb", verifiedUser := false, following := [], followers := [],
    savedPosts := [] }

def photoC9 : Photo :=
  { userId := "u2", imageSrc := "img", caption := "dawn", dateCreated := 2,
    likes := [], saved := [], comments := [] }

def dbC9 : DB := { users := [("ud2", userC9)], photos := [("pd1", photoC9)] }

/-- C9 witness: at a concrete database in which the single fetched photo's
owner exists, the feed succeeds. -/
theorem getFollowingUserPhotosByUserId_rejects_on_missing_owner_witness :
    (getFollowingUserPhotosByUserId "u1" ["u2"] dbC9).isSome = true :=
  (getFollowingUserPhotosByUserId_rejects_on_missing_owner "u1" ["u2"] dbC9).mpr
    (by decide)

/-- C10: `updateUserFollowingField` leaves the `photos` collection untouched;
on the `users` collection it relates every original document to its updated
counterpart by the frame relation — document identifier and all fields other
than `following` unchanged, `following` unchanged on non-matching documents
and union/remove-updated on every document whose `userId` matches — and when
no document matches, the whole database is unchanged. -/
theorem updateUserFollowingField_frame (db : DB) (s u : String) (status : Bool) :
    (updateUserFollowingField s u status db).photos = db.photos ∧
    List.Forall₂ (followingFrame s u status) db.users
      (updateUserFollowingField s u status db).users ∧
    ((∀ p ∈ db.users, p.2.userId ≠ u) → updateUserFollowingField s u status db = db) := by
  refine ⟨rfl, ?_, ?_⟩
  · unfold updateUserFollowingField
    rw [List.forall₂_map_right_iff, List.forall₂_same]
    intro p _
    by_cases h : p.2.userId = u
    · rw [if_pos h]
      unfold followingFrame applyFollowingUpdate
      exact ⟨rfl, rfl, rfl, rfl, rfl, rfl, rfl, rfl, rfl,
        fun hne => absurd h hne, fun _ => rfl⟩
    · rw [if_neg h]
      unfold followingFrame
      exact ⟨rfl, rfl, rfl, rfl, rfl, rfl, rfl, rfl, rfl,
        fun _ => rfl, fun he => absurd he h⟩
  · intro h
    unfold updateUserFollowingField
    cases db with
    | mk users photos =>
      congr 1
      have hpt : ∀ p ∈ users,
          (if p.2.userId = u then (p.1, applyFollowingUpdate s status p.2) else p) = p := by
        intro p hp
        rw [if_neg (h p hp)]
      rw [List.map_congr_left hpt]
      exact List.map_id _

def userC10 : User :=
  { userId := "u1", username := "alice", fullName := "Alice A", emailAddress := "a@mail",
    photoURL := "pa", verifiedUser := false, following := ["u3"], followers := [],
    savedPosts := [] }

def dbC10 : DB := { users := [("d1", userC10)], photos := [] }

/-- C10 witness: updating with a `userId` that matches no document leaves a
concrete database (photos and all) unchanged. -/
theorem updateUserFollowingField_frame_witness :
    (updateUserFollowingField "u2" "zz" false dbC10).photos = dbC10.photos ∧
    updateUserFollowingField "u2" "zz" false dbC10 = dbC10 :=
  ⟨(updateUserFollowingField_frame dbC10 "u2" "zz" false).1,
   (updateUserFollowingField_frame dbC10 "u2" "zz" false).2.2 (by decide)⟩

end Insta
